import Mathlib

/-!
Verification of the concurrency and data-shuttling primitives of the
cpp-common-utils repository: the thread-safe FIFO and priority queues, the
bounded worker pool, the top-k heap, the single-value slot and the
type-erased parameter packet.  Each C++ class is embedded as a Lean state
type with one function per member function; blocking calls are linearised
(a call that the C++ code blocks until a condition holds is embedded as a
function whose theorem carries that condition as a hypothesis, or, for
timed waits, as a function that returns the timeout outcome when the
condition fails to hold).
-/

namespace CppUtils

/-- Modelled from the spec: `ConcurrentQueue<T>` of thread_safe_queue.hpp
(the header itself is not in the source tree; only its tests are).  A
mutex-guarded, unbounded, thread-safe FIFO queue; the list holds the queued
items, front at the head.  `push` inserts unconditionally at the back and
never fails. -/
structure ConcurrentQueue (T : Type) where
  queue_ : List T

def ConcurrentQueue.new (T : Type) : ConcurrentQueue T := ⟨[]⟩

/-- Modelled from the spec: `push(item)` inserts unconditionally (no
capacity bound); never blocks; never fails. -/
def ConcurrentQueue.push {T : Type} (q : ConcurrentQueue T) (x : T) :
    ConcurrentQueue T :=
  ⟨q.queue_ ++ [x]⟩

/-- Modelled from the spec: `try_pop()` returns the front item immediately
if present, else an empty result; never blocks.  The second component is
the queue after the call. -/
def ConcurrentQueue.try_pop {T : Type} (q : ConcurrentQueue T) :
    Option T × ConcurrentQueue T :=
  match q.queue_ with
  | [] => (none, q)
  | x :: rest => (some x, ⟨rest⟩)

def ConcurrentQueue.size {T : Type} (q : ConcurrentQueue T) : Nat :=
  q.queue_.length

def ConcurrentQueue.isEmpty {T : Type} (q : ConcurrentQueue T) : Bool :=
  q.queue_.isEmpty

/-- A single producer/consumer history over the queue: each step either
pushes a value or pops (via `try_pop`). -/
inductive QueueOp (T : Type) where
  | push (x : T)
  | pop

/-- The values pushed during a history, in order. -/
def pushedOf {T : Type} (ops : List (QueueOp T)) : List T :=
  ops.filterMap (fun op => match op with | .push x => some x | .pop => none)

/-- Run a history against a queue, collecting the successfully popped
values in order, together with the final queue. -/
def cqRun {T : Type} (q : ConcurrentQueue T) :
    List (QueueOp T) → List T × ConcurrentQueue T
  | [] => ([], q)
  | .push x :: rest => cqRun (q.push x) rest
  | .pop :: rest =>
    match q.try_pop with
    | (none, q') => cqRun q' rest
    | (some v, q') =>
      let r := cqRun q' rest
      (v :: r.1, r.2)

/-- Modelled from the spec: `ConcurrentPriorityQueue<T, Compare>` of
thread_safe_queue.hpp.  Same contract shape as `ConcurrentQueue` but pop
order follows a comparator.  `before a b = true` means `a` is dequeued
before `b`; the list is kept sorted with the next item to pop at the head,
an insertion placing a new item after existing items it does not strictly
precede (ties keep arrival position among equals, which the spec leaves to
the heap structure). -/
def pqInsert {T : Type} (before : T → T → Bool) (x : T) : List T → List T
  | [] => [x]
  | y :: ys => if before x y then x :: y :: ys else y :: pqInsert before x ys

structure ConcurrentPriorityQueue (T : Type) where
  before : T → T → Bool
  queue_ : List T

def ConcurrentPriorityQueue.new {T : Type} (before : T → T → Bool) :
    ConcurrentPriorityQueue T :=
  ⟨before, []⟩

def ConcurrentPriorityQueue.push {T : Type} (q : ConcurrentPriorityQueue T)
    (x : T) : ConcurrentPriorityQueue T :=
  ⟨q.before, pqInsert q.before x q.queue_⟩

def ConcurrentPriorityQueue.try_pop {T : Type} (q : ConcurrentPriorityQueue T) :
    Option T × ConcurrentPriorityQueue T :=
  match q.queue_ with
  | [] => (none, q)
  | x :: rest => (some x, ⟨q.before, rest⟩)

def ConcurrentPriorityQueue.size {T : Type} (q : ConcurrentPriorityQueue T) :
    Nat :=
  q.queue_.length

def ConcurrentPriorityQueue.isEmpty {T : Type}
    (q : ConcurrentPriorityQueue T) : Bool :=
  q.queue_.isEmpty

/-- The CustomType of test_thread_safe_queue.cpp: a priority paired with a
payload string; comparators look only at the priority. -/
structure CustomType where
  priority : Int
  data : String
deriving DecidableEq, Repr

/-- Max-heap order of the tests (std::less comparator on CustomType):
higher priority pops first. -/
def maxBefore (a b : CustomType) : Bool := b.priority < a.priority

/-- Min-heap order of the tests (std::greater comparator on CustomType):
lower priority pops first. -/
def minBefore (a b : CustomType) : Bool := a.priority < b.priority

/-- Modelled from the spec: the lifecycle states of the worker pool
(thread_pool.hpp is not in the source tree; only its tests are). -/
inductive PoolState where
  | INITIAL
  | RUNNING
  | STOPPING
  | STOPPED
deriving DecidableEq, Repr

/-- Modelled from the spec: the synchronous failure taxonomy of `submit`. -/
inductive SubmitError where
  | NotRunning
  | Stopping
  | QueueFull
deriving DecidableEq, Repr

/-- A submitted unit of work: the callable with its bound argument, plus
the identifier of the ResultHandle created for it at submission time. -/
structure PoolTask where
  tid : Nat
  func : Int → Int
  arg : Int

/-- Invoking a task applies the wrapped callable to its bound argument. -/
def PoolTask.invoke (t : PoolTask) : Int := t.func t.arg

/-- Modelled from the spec: the fixed submission backpressure timeout
(5 seconds in the reference behavior), in milliseconds. -/
def backpressureTimeoutMs : Nat := 5000

/-- Modelled from the spec: the worker pool state.  `taskQueue` is the
bounded internal queue (capacity `maxQueueSize`, default 1024), `executing`
the tasks dequeued by workers and currently mid-execution, `completed` the
fulfilled ResultHandles as (handle id, result) pairs, and `nextId` the next
fresh handle id. -/
structure ThreadPool where
  state : PoolState
  maxQueueSize : Nat
  taskQueue : List PoolTask
  workerCount : Nat
  executing : List PoolTask
  completed : List (Nat × Int)
  nextId : Nat

/-- Modelled from the spec: constructing a pool with a given bounded-queue
capacity; the pool begins in `INITIAL` with no workers. -/
def ThreadPool.new (cap : Nat) : ThreadPool :=
  ⟨.INITIAL, cap, [], 0, [], [], 0⟩

/-- Modelled from the spec: `start(n)` spawns `n` workers and moves an
`INITIAL` or `STOPPED` pool to `RUNNING`; while already `RUNNING` it is a
no-op from the queue's perspective but may replace the worker set. -/
def ThreadPool.start (p : ThreadPool) (n : Nat) : ThreadPool :=
  match p.state with
  | .INITIAL => { p with state := .RUNNING, workerCount := n }
  | .STOPPED => { p with state := .RUNNING, workerCount := n }
  | .RUNNING => { p with workerCount := n }
  | .STOPPING => p

/-- The outcome of one `submit` call: the returned ResultHandle id or the
synchronous error, the pool after the call, and how long the caller was
blocked on the backpressure wait (milliseconds). -/
structure SubmitOutcome where
  result : Except SubmitError Nat
  pool : ThreadPool
  waitedMs : Nat

/-- Modelled from the spec, submission path of §4.3: if the state is not
`RUNNING`, fail immediately (`NotRunning` for `INITIAL`/`STOPPED`,
`Stopping` for `STOPPING`).  Otherwise wrap the callable into a Task with a
fresh ResultHandle and enqueue it if the bounded queue has room.  If the
queue is at capacity the caller blocks on the non-full condition; the
interleaving in which a worker frees a slot within the timeout is
linearised as the submit call seeing the queue after that dequeue, so the
branch below is the one where no capacity frees up within the whole
timeout: the call fails with `QueueFull` after waiting the full timeout and
the task is never enqueued. -/
def ThreadPool.submit (p : ThreadPool) (func : Int → Int) (arg : Int) :
    SubmitOutcome :=
  match p.state with
  | .INITIAL => ⟨.error .NotRunning, p, 0⟩
  | .STOPPED => ⟨.error .NotRunning, p, 0⟩
  | .STOPPING => ⟨.error .Stopping, p, 0⟩
  | .RUNNING =>
    if p.taskQueue.length < p.maxQueueSize then
      ⟨.ok p.nextId,
        { p with taskQueue := p.taskQueue ++ [⟨p.nextId, func, arg⟩],
                 nextId := p.nextId + 1 },
        0⟩
    else
      ⟨.error .QueueFull, p, backpressureTimeoutMs⟩

/-- Modelled from the spec, worker loop of §4.4: an idle worker dequeues
the front task (freeing one queue slot) and begins executing it outside any
lock.  Workers dequeue only while the pool is `RUNNING` or `STOPPING`. -/
def ThreadPool.workerTake (p : ThreadPool) : ThreadPool :=
  match p.state, p.taskQueue with
  | .RUNNING, t :: rest =>
    { p with taskQueue := rest, executing := p.executing ++ [t] }
  | .STOPPING, t :: rest =>
    { p with taskQueue := rest, executing := p.executing ++ [t] }
  | _, _ => p

/-- Modelled from the spec: a worker finishes the task it is executing,
storing the return value into the task's ResultHandle and signalling it
complete. -/
def ThreadPool.workerFinish (p : ThreadPool) : ThreadPool :=
  match p.executing with
  | [] => p
  | t :: rest =>
    { p with executing := rest, completed := p.completed ++ [(t.tid, t.invoke)] }

/-- Modelled from the spec: `stop()` moves a `RUNNING` pool through
`STOPPING` to `STOPPED`, returning only once every worker has finished its
in-flight task and joined; tasks still sitting in the queue are discarded
(never executed, their handles left unfulfilled) and the queue is cleared.
`stop` while `STOPPED` or `INITIAL` is a no-op. -/
def ThreadPool.stop (p : ThreadPool) : ThreadPool :=
  match p.state with
  | .RUNNING =>
    ⟨.STOPPED, p.maxQueueSize, [], 0, [],
      p.completed ++ p.executing.map (fun t => (t.tid, t.invoke)), p.nextId⟩
  | .STOPPING =>
    ⟨.STOPPED, p.maxQueueSize, [], 0, [],
      p.completed ++ p.executing.map (fun t => (t.tid, t.invoke)), p.nextId⟩
  | .INITIAL => p
  | .STOPPED => p

/-- Modelled from the spec: `ResultHandle<R>.get()` blocks until the task
completes; in the linearised model it reads the fulfilled value, `none`
standing for a handle not (yet) fulfilled. -/
def ThreadPool.get (p : ThreadPool) (h : Nat) : Option Int :=
  (p.completed.find? (fun c => c.fst == h)).map (fun c => c.snd)

/-- Ordered insertion into the sorted-list embedding of
`std::priority_queue<int, std::vector<int>, std::greater<int>>` used by
`TopKHeap<int>` (topk_heap.hpp): with the `std::greater` comparator the
queue's top is the smallest element, so the contents are kept ascending
with the top at the head. -/
def heapInsert (x : Int) : List Int → List Int
  | [] => [x]
  | y :: ys => if x ≤ y then x :: y :: ys else y :: heapInsert x ys

/-- TopKHeap of topk_heap.hpp: a capacity bound and the underlying
priority queue, embedded as its ascending contents list (head = top = the
least-retained element under the default comparator). -/
structure TopKHeap where
  capacity_ : Nat
  heap : List Int
deriving DecidableEq, Repr

/-- TopKHeap(capacity) constructor: empty heap with the given capacity. -/
def TopKHeap.new (capacity : Nat) : TopKHeap := ⟨capacity, []⟩

/-- push_no_lock of topk_heap.hpp: push the item onto the heap, then if
the size exceeds the capacity pop the top (head). -/
def TopKHeap.push_no_lock (h : TopKHeap) (item : Int) : TopKHeap :=
  if (heapInsert item h.heap).length > h.capacity_ then
    ⟨h.capacity_, (heapInsert item h.heap).tail⟩
  else ⟨h.capacity_, heapInsert item h.heap⟩

/-- push of topk_heap.hpp: push_no_lock under the lock. -/
def TopKHeap.push (h : TopKHeap) (item : Int) : TopKHeap :=
  h.push_no_lock item

/-- push_many of topk_heap.hpp: push_no_lock each item in order under one
lock. -/
def TopKHeap.push_many (h : TopKHeap) (items : List Int) : TopKHeap :=
  items.foldl TopKHeap.push_no_lock h

/-- The while loop of setCapacity in topk_heap.hpp: while the heap size
exceeds the capacity, pop the top (head). -/
def heapTrim (c : Nat) : List Int → List Int
  | [] => []
  | x :: xs => if xs.length + 1 > c then heapTrim c xs else x :: xs

/-- setCapacity of topk_heap.hpp: store the new capacity, then pop the top
until the size no longer exceeds it. -/
def TopKHeap.setCapacity (h : TopKHeap) (capacity : Nat) : TopKHeap :=
  ⟨capacity, heapTrim capacity h.heap⟩

/-- size of topk_heap.hpp. -/
def TopKHeap.size (h : TopKHeap) : Nat := h.heap.length

/-- top of topk_heap.hpp: nullopt when empty, else the heap's top. -/
def TopKHeap.top (h : TopKHeap) : Option Int := h.heap.head?

/-- full of topk_heap.hpp. -/
def TopKHeap.full (h : TopKHeap) : Bool := h.heap.length ≥ h.capacity_

/-- getTopK of topk_heap.hpp: pop everything off a copy of the heap (which
yields the contents in heap order, least-retained first) and reverse. -/
def TopKHeap.getTopK (h : TopKHeap) : List Int := h.heap.reverse

/-- A history over a TopKHeap: the operations the capacity claim ranges
over. -/
inductive HeapOp where
  | push (x : Int)
  | pushMany (xs : List Int)
  | setCap (c : Nat)

def TopKHeap.applyOp (h : TopKHeap) : HeapOp → TopKHeap
  | .push x => h.push x
  | .pushMany xs => h.push_many xs
  | .setCap c => h.setCapacity c

def TopKHeap.runOps (h : TopKHeap) (ops : List HeapOp) : TopKHeap :=
  ops.foldl TopKHeap.applyOp h

/-- ThreadSafeSlot of thread_safe_slot.hpp: a single-value mailbox holding
an optional value, a stop flag and the new-value-since-last-get flag, value
type specialised to Int. -/
structure ThreadSafeSlot where
  value_ : Option Int
  isStopped_ : Bool
  hasNewValueSinceLastGet_ : Bool
deriving DecidableEq, Repr

/-- Default-constructed ThreadSafeSlot. -/
def ThreadSafeSlot.new : ThreadSafeSlot := ⟨none, false, false⟩

/-- set of thread_safe_slot.hpp: store the value and raise the new-value
flag. -/
def ThreadSafeSlot.set (s : ThreadSafeSlot) (v : Int) : ThreadSafeSlot :=
  ⟨some v, s.isStopped_, true⟩

/-- wait_and_get of thread_safe_slot.hpp, linearised at the moment the
condition-variable wait returns (which the C++ code only does once
`hasNewValueSinceLastGet_ || isStopped_` holds — theorems about this call
carry that as a hypothesis): if stopped with no new value, return nullopt;
otherwise clear the flag and move the value out. -/
def ThreadSafeSlot.wait_and_get (s : ThreadSafeSlot) :
    Option Int × ThreadSafeSlot :=
  if s.isStopped_ && !s.hasNewValueSinceLastGet_ then (none, s)
  else (s.value_, ⟨s.value_, s.isStopped_, false⟩)

/-- wait_and_get_for of thread_safe_slot.hpp, linearised: the timed
condition-variable wait returns false exactly when the timeout expires with
the predicate `hasNewValueSinceLastGet_ || isStopped_` still false, and
then the call returns nullopt; otherwise it behaves as wait_and_get. -/
def ThreadSafeSlot.wait_and_get_for (s : ThreadSafeSlot) :
    Option Int × ThreadSafeSlot :=
  if !(s.hasNewValueSinceLastGet_ || s.isStopped_) then (none, s)
  else if s.isStopped_ && !s.hasNewValueSinceLastGet_ then (none, s)
  else (s.value_, ⟨s.value_, s.isStopped_, false⟩)

/-- try_get of thread_safe_slot.hpp. -/
def ThreadSafeSlot.try_get (s : ThreadSafeSlot) :
    Option Int × ThreadSafeSlot :=
  if !s.hasNewValueSinceLastGet_ then (none, s)
  else (s.value_, ⟨s.value_, s.isStopped_, false⟩)

/-- stop of thread_safe_slot.hpp: raise the stop flag and wake all
waiters. -/
def ThreadSafeSlot.stop (s : ThreadSafeSlot) : ThreadSafeSlot :=
  ⟨s.value_, true, s.hasNewValueSinceLastGet_⟩

/-- is_stopped of thread_safe_slot.hpp. -/
def ThreadSafeSlot.is_stopped (s : ThreadSafeSlot) : Bool := s.isStopped_

/-- reset of thread_safe_slot.hpp. -/
def ThreadSafeSlot.reset (_ : ThreadSafeSlot) : ThreadSafeSlot :=
  ⟨none, false, false⟩

/-- The C++ types that the tests store in a DataPacket; std::any erases
the static type and any_cast recovers it by exact type match. -/
inductive CppType where
  | tInt
  | tString
  | tDouble
deriving DecidableEq, Repr

/-- A std::any value as stored in DataPacket::params: a payload tagged
with its dynamic type (the double payload abstracted to its bit pattern,
which is all any_cast inspects). -/
inductive AnyVal where
  | vInt (n : Int)
  | vString (s : String)
  | vDouble (bits : Nat)
deriving DecidableEq, Repr

/-- The dynamic type tag of a stored value, as typeid/any_cast see it. -/
def AnyVal.typeOf : AnyVal → CppType
  | .vInt _ => .tInt
  | .vString _ => .tString
  | .vDouble _ => .tDouble

/-- DataPacket of data_packet.hpp: an id and the params map from string
keys to type-erased values, embedded as an association list with unique
keys (std::map semantics: at most one entry per key). -/
structure DataPacket where
  id : Nat
  params : List (String × AnyVal)
deriving DecidableEq, Repr

/-- params.find(key) of data_packet.hpp. -/
def DataPacket.findKey (p : DataPacket) (key : String) :
    Option (String × AnyVal) :=
  p.params.find? (fun kv => kv.fst == key)

/-- getParam<T> of data_packet.hpp: if the key is absent, throw "Missing
required parameter"; otherwise any_cast the stored value to T, turning a
bad_any_cast into a runtime_error about the parameter type.  The thrown
runtime_error is embedded as `Except.error` carrying the message. -/
def DataPacket.getParam (p : DataPacket) (t : CppType) (key : String) :
    Except String AnyVal :=
  match p.findKey key with
  | none => .error ("Missing required parameter: " ++ key)
  | some kv =>
    if kv.snd.typeOf = t then .ok kv.snd
    else .error ("Invalid parameter type for key " ++ key)

/-- getOptionalParam<T> of data_packet.hpp: nullopt if the key is absent;
otherwise any_cast the stored value to T, a bad_any_cast again becoming a
runtime_error. -/
def DataPacket.getOptionalParam (p : DataPacket) (t : CppType)
    (key : String) : Except String (Option AnyVal) :=
  match p.findKey key with
  | none => .ok none
  | some kv =>
    if kv.snd.typeOf = t then .ok (some kv.snd)
    else .error ("Invalid parameter type for optional key " ++ key)

theorem cqRun_append_eq {T : Type} (ops : List (QueueOp T)) :
    ∀ q : ConcurrentQueue T,
      (cqRun q ops).1 ++ (cqRun q ops).2.queue_ = q.queue_ ++ pushedOf ops := by
  induction ops with
  | nil => intro q; simp [cqRun, pushedOf]
  | cons op rest ih =>
    intro q
    cases op with
    | push x =>
      have := ih (q.push x)
      simp only [cqRun, pushedOf, List.filterMap_cons] at this ⊢
      rw [this]
      simp [ConcurrentQueue.push]
    | pop =>
      obtain ⟨l⟩ := q
      cases l with
      | nil =>
        have := ih ⟨[]⟩
        simpa [cqRun, ConcurrentQueue.try_pop, pushedOf] using this
      | cons v vs =>
        have := ih ⟨vs⟩
        simp only [cqRun, ConcurrentQueue.try_pop, pushedOf,
          List.filterMap_cons] at this ⊢
        simp [List.cons_append, this]

/-- C5: for every single-producer/single-consumer history over a
ConcurrentQueue that drains the queue, the sequence of popped items equals
the sequence of pushed items (FIFO: pop removes and returns the front
item). -/
theorem c5_fifo_popped_eq_pushed (T : Type) (ops : List (QueueOp T))
    (hdrained : (cqRun (ConcurrentQueue.new T) ops).2.queue_ = []) :
    (cqRun (ConcurrentQueue.new T) ops).1 = pushedOf ops := by
  have h := cqRun_append_eq ops (ConcurrentQueue.new T)
  rw [hdrained, List.append_nil] at h
  simpa [ConcurrentQueue.new] using h

/-- Witness for C5: the history push 1, push 2, pop, push 3, pop, pop
drains the queue and pops [1, 2, 3], the pushed sequence. -/
theorem c5_fifo_witness :
    (cqRun (ConcurrentQueue.new Int)
      [.push 1, .push 2, .pop, .push 3, .pop, .pop]).2.queue_ = [] ∧
    (cqRun (ConcurrentQueue.new Int)
        [.push 1, .push 2, .pop, .push 3, .pop, .pop]).1 =
      pushedOf [.push 1, .push 2, .pop, .push 3, .pop, .pop] :=
  ⟨rfl, c5_fifo_popped_eq_pushed Int
    [.push 1, .push 2, .pop, .push 3, .pop, .pop] rfl⟩

def c6MaxQueue : ConcurrentPriorityQueue CustomType :=
  (((ConcurrentPriorityQueue.new maxBefore).push ⟨1, "low"⟩).push
    ⟨3, "high"⟩).push ⟨2, "mid"⟩

def c6MinQueue : ConcurrentPriorityQueue CustomType :=
  (((ConcurrentPriorityQueue.new minBefore).push ⟨1, "low"⟩).push
    ⟨3, "high"⟩).push ⟨2, "mid"⟩

/-- C6: pushing items with priorities {1, 3, 2} into a max-ordered
ConcurrentPriorityQueue and popping repeatedly yields priorities 3, 2, 1;
with the min comparator the pop order is 1, 2, 3. -/
theorem c6_priority_pop_order :
    c6MaxQueue.try_pop.1 = some ⟨3, "high"⟩ ∧
    c6MaxQueue.try_pop.2.try_pop.1 = some ⟨2, "mid"⟩ ∧
    c6MaxQueue.try_pop.2.try_pop.2.try_pop.1 = some ⟨1, "low"⟩ ∧
    c6MaxQueue.try_pop.2.try_pop.2.try_pop.2.isEmpty = true ∧
    c6MinQueue.try_pop.1 = some ⟨1, "low"⟩ ∧
    c6MinQueue.try_pop.2.try_pop.1 = some ⟨2, "mid"⟩ ∧
    c6MinQueue.try_pop.2.try_pop.2.try_pop.1 = some ⟨3, "high"⟩ ∧
    c6MinQueue.try_pop.2.try_pop.2.try_pop.2.isEmpty = true := by
  refine ⟨rfl, rfl, rfl, rfl, rfl, rfl, rfl, rfl⟩

theorem find?_append_of_all_false {α : Type} (l₁ l₂ : List α) (f : α → Bool)
    (h : ∀ a ∈ l₁, f a = false) : (l₁ ++ l₂).find? f = l₂.find? f := by
  induction l₁ with
  | nil => simp
  | cons a as ih =>
    have ha : f a = false := h a (List.mem_cons_self a as)
    have has : ∀ b ∈ as, f b = false :=
      fun b hb => h b (List.mem_cons_of_mem a hb)
    rw [List.cons_append, List.find?_cons_of_neg _ (by simp [ha]), ih has]

/-- Shared round trip of the pool: on an idle RUNNING pool with queue room
and a fresh handle id, submit returns the fresh ResultHandle, a worker
dequeues and finishes the task, and reading the handle yields the
callable's value at the bound argument. -/
theorem submit_take_finish_get (p : ThreadPool) (f : Int → Int) (x : Int)
    (hs : p.state = .RUNNING) (hq : p.taskQueue = []) (he : p.executing = [])
    (hcap : 0 < p.maxQueueSize)
    (hfresh : ∀ c ∈ p.completed, c.fst ≠ p.nextId) :
    (p.submit f x).result = .ok p.nextId ∧
    ((p.submit f x).pool.workerTake.workerFinish.get p.nextId) = some (f x) := by
  obtain ⟨st, cap, tq, wc, ex, comp, nid⟩ := p
  simp only at hs hq he hcap hfresh
  subst hs; subst hq; subst he
  simp only [ThreadPool.submit, List.length_nil]
  rw [if_pos hcap]
  refine ⟨rfl, ?_⟩
  simp only [List.nil_append, ThreadPool.workerTake, ThreadPool.workerFinish,
    ThreadPool.get]
  rw [find?_append_of_all_false _ _ _
    (fun c hc => by simpa using hfresh c hc)]
  simp [PoolTask.invoke]

/-- C1: with queue capacity 1 and a single worker blocked inside the first
task, a second submission fills the queue and a third fails with QueueFull
after waiting the configured backpressure timeout (5000 ms: neither
immediately nor indefinitely), the pool left exactly as it was — the
rejected task is never enqueued, never executed, and never assigned a
handle. -/
theorem c1_backpressure_queue_full :
    ((((ThreadPool.new 1).start 1).submit (fun _ => 0) 0).result = .ok 0) ∧
    ((((ThreadPool.new 1).start 1).submit (fun _ => 0) 0).pool.workerTake.submit
        (fun y => y + 1) 1).result = .ok 1 ∧
    (((((ThreadPool.new 1).start 1).submit (fun _ => 0) 0).pool.workerTake.submit
          (fun y => y + 1) 1).pool.submit (fun y => y + 2) 2).result =
      .error .QueueFull ∧
    (((((ThreadPool.new 1).start 1).submit (fun _ => 0) 0).pool.workerTake.submit
          (fun y => y + 1) 1).pool.submit (fun y => y + 2) 2).waitedMs =
      backpressureTimeoutMs ∧
    backpressureTimeoutMs = 5000 ∧
    0 < backpressureTimeoutMs ∧
    (((((ThreadPool.new 1).start 1).submit (fun _ => 0) 0).pool.workerTake.submit
          (fun y => y + 1) 1).pool.submit (fun y => y + 2) 2).pool =
      ((((ThreadPool.new 1).start 1).submit (fun _ => 0) 0).pool.workerTake.submit
        (fun y => y + 1) 1).pool := by
  refine ⟨rfl, rfl, rfl, rfl, rfl, by decide, rfl⟩

/-- C2: whenever the pool state is not RUNNING, submit fails synchronously
(zero wait, pool unchanged, never enqueuing) with NotRunning for
INITIAL/STOPPED and Stopping for STOPPING — always one of the two — and
after any stop() has completed, submit raises NotRunning. -/
theorem c2_lifecycle_rejection (p : ThreadPool) (f : Int → Int) (x : Int)
    (hns : p.state ≠ .RUNNING) :
    ((p.submit f x).result = .error .NotRunning ∨
      (p.submit f x).result = .error .Stopping) ∧
    (p.submit f x).waitedMs = 0 ∧
    (p.submit f x).pool = p ∧
    (p.state = .INITIAL → (p.submit f x).result = .error .NotRunning) ∧
    (p.state = .STOPPED → (p.submit f x).result = .error .NotRunning) ∧
    (p.state = .STOPPING → (p.submit f x).result = .error .Stopping) ∧
    (∀ q : ThreadPool, ((q.stop).submit f x).result = .error .NotRunning) := by
  have hstop : ∀ q : ThreadPool,
      ((q.stop).submit f x).result = .error .NotRunning := by
    intro q
    cases hq : q.state <;> simp [ThreadPool.stop, ThreadPool.submit, hq]
  refine ⟨?_, ?_, ?_, ?_, ?_, ?_, hstop⟩ <;>
    cases hp : p.state <;> simp_all [ThreadPool.submit]

def c2StoppingPool : ThreadPool := ⟨.STOPPING, 1024, [], 1, [], [], 0⟩

/-- Witness for C2 at a pool caught mid-stop (state STOPPING). -/
theorem c2_lifecycle_rejection_witness :
    (c2StoppingPool.state ≠ .RUNNING) ∧
    (((c2StoppingPool.submit (fun y => y) 7).result = .error .NotRunning ∨
      (c2StoppingPool.submit (fun y => y) 7).result = .error .Stopping) ∧
    (c2StoppingPool.submit (fun y => y) 7).waitedMs = 0 ∧
    (c2StoppingPool.submit (fun y => y) 7).pool = c2StoppingPool ∧
    (c2StoppingPool.state = .INITIAL →
      (c2StoppingPool.submit (fun y => y) 7).result = .error .NotRunning) ∧
    (c2StoppingPool.state = .STOPPED →
      (c2StoppingPool.submit (fun y => y) 7).result = .error .NotRunning) ∧
    (c2StoppingPool.state = .STOPPING →
      (c2StoppingPool.submit (fun y => y) 7).result = .error .Stopping) ∧
    (∀ q : ThreadPool,
      ((q.stop).submit (fun y => y) 7).result = .error .NotRunning)) :=
  ⟨by decide, c2_lifecycle_rejection c2StoppingPool (fun y => y) 7 (by decide)⟩

/-- C3: on an idle RUNNING pool, submit(f, x) returns a ResultHandle whose
get() yields f(x) once a worker has executed the task. -/
theorem c3_round_trip (p : ThreadPool) (f : Int → Int) (x : Int)
    (hs : p.state = .RUNNING) (hq : p.taskQueue = []) (he : p.executing = [])
    (hcap : 0 < p.maxQueueSize)
    (hfresh : ∀ c ∈ p.completed, c.fst ≠ p.nextId) :
    (p.submit f x).result = .ok p.nextId ∧
    ((p.submit f x).pool.workerTake.workerFinish.get p.nextId) = some (f x) :=
  submit_take_finish_get p f x hs hq he hcap hfresh

/-- Witness for C3: submit(fun y => y * 2, 21) on a freshly started pool
yields a handle whose get() returns 42. -/
theorem c3_round_trip_witness :
    (((ThreadPool.new 1024).start 2).state = .RUNNING) ∧
    ((((ThreadPool.new 1024).start 2).submit (fun y => y * 2) 21).result =
      .ok 0 ∧
    ((((ThreadPool.new 1024).start 2).submit (fun y => y * 2)
        21).pool.workerTake.workerFinish.get 0) = some 42) :=
  ⟨rfl, c3_round_trip ((ThreadPool.new 1024).start 2) (fun y => y * 2) 21
    rfl rfl rfl (by decide) (by decide)⟩

/-- C4: stop() on a RUNNING pool reaches STOPPED with no task left
mid-execution, and every task that was mid-execution when stop() was
invoked has run to completion, its result recorded in its handle. -/
theorem c4_stop_drains_executing (p : ThreadPool) (hs : p.state = .RUNNING) :
    p.stop.state = .STOPPED ∧ p.stop.executing = [] ∧
    ∀ t ∈ p.executing, (t.tid, t.invoke) ∈ p.stop.completed := by
  obtain ⟨st, cap, tq, wc, ex, comp, nid⟩ := p
  simp only at hs
  subst hs
  refine ⟨rfl, rfl, ?_⟩
  intro t ht
  simp only [ThreadPool.stop]
  exact List.mem_append_right _ (List.mem_map_of_mem _ ht)

/-- Witness for C4 at a pool whose single worker is mid-execution in a
dequeued task. -/
theorem c4_stop_drains_executing_witness :
    ((((ThreadPool.new 4).start 1).submit (fun y => y + 1)
        5).pool.workerTake.state = .RUNNING) ∧
    ((((ThreadPool.new 4).start 1).submit (fun y => y + 1)
        5).pool.workerTake.stop.state = .STOPPED ∧
    (((ThreadPool.new 4).start 1).submit (fun y => y + 1)
        5).pool.workerTake.stop.executing = [] ∧
    ∀ t ∈ (((ThreadPool.new 4).start 1).submit (fun y => y + 1)
        5).pool.workerTake.executing,
      (t.tid, t.invoke) ∈
        (((ThreadPool.new 4).start 1).submit (fun y => y + 1)
          5).pool.workerTake.stop.completed) :=
  ⟨rfl, c4_stop_drains_executing
    ((((ThreadPool.new 4).start 1).submit (fun y => y + 1) 5).pool.workerTake)
    rfl⟩

/-- C7: start(n) on a STOPPED (idle, as stop leaves it) pool returns it to
RUNNING with the requested fresh worker set, after which submit succeeds
again and the submitted task is executed, fulfilling its ResultHandle. -/
theorem c7_restart_after_stop (p : ThreadPool) (n : Nat) (f : Int → Int)
    (x : Int) (hs : p.state = .STOPPED) (hq : p.taskQueue = [])
    (he : p.executing = []) (hcap : 0 < p.maxQueueSize)
    (hfresh : ∀ c ∈ p.completed, c.fst ≠ p.nextId) :
    (p.start n).state = .RUNNING ∧ (p.start n).workerCount = n ∧
    ((p.start n).submit f x).result = .ok p.nextId ∧
    (((p.start n).submit f x).pool.workerTake.workerFinish.get p.nextId) =
      some (f x) := by
  obtain ⟨st, cap, tq, wc, ex, comp, nid⟩ := p
  simp only at hs hq he hcap hfresh
  subst hs; subst hq; subst he
  have h := submit_take_finish_get
    (ThreadPool.start ⟨.STOPPED, cap, [], wc, [], comp, nid⟩ n) f x
    rfl rfl rfl hcap hfresh
  exact ⟨rfl, rfl, h.1, h.2⟩

/-- Witness for C7: a started-then-stopped pool restarted with 4 workers
accepts a submission again and executes it. -/
theorem c7_restart_after_stop_witness :
    (((ThreadPool.new 1024).start 2).stop.state = .STOPPED) ∧
    ((((ThreadPool.new 1024).start 2).stop.start 4).state = .RUNNING ∧
    (((ThreadPool.new 1024).start 2).stop.start 4).workerCount = 4 ∧
    ((((ThreadPool.new 1024).start 2).stop.start 4).submit (fun y => 7 - y)
        5).result = .ok 0 ∧
    (((((ThreadPool.new 1024).start 2).stop.start 4).submit (fun y => 7 - y)
        5).pool.workerTake.workerFinish.get 0) = some 2) :=
  ⟨rfl, c7_restart_after_stop (((ThreadPool.new 1024).start 2).stop) 4
    (fun y => 7 - y) 5 rfl rfl rfl (by decide) (by decide)⟩

theorem heapInsert_length (x : Int) (l : List Int) :
    (heapInsert x l).length = l.length + 1 := by
  induction l with
  | nil => rfl
  | cons y ys ih =>
    simp only [heapInsert]
    split
    · rfl
    · simp [ih]

theorem heapTrim_length (c : Nat) (l : List Int) :
    (heapTrim c l).length = min l.length c := by
  induction l with
  | nil => simp [heapTrim]
  | cons y ys ih =>
    simp only [heapTrim]
    split
    · rename_i hgt
      rw [ih]
      simp only [List.length_cons]
      omega
    · rename_i hng
      simp only [List.length_cons]
      omega

/-- The size invariant of the top-k heap: at most capacity elements. -/
def heapInv (h : TopKHeap) : Prop := h.heap.length ≤ h.capacity_

theorem push_no_lock_inv (h : TopKHeap) (x : Int) (hh : heapInv h) :
    heapInv (h.push_no_lock x) := by
  unfold heapInv TopKHeap.push_no_lock at *
  split
  · rename_i hgt
    dsimp only
    rw [List.length_tail, heapInsert_length] at *
    omega
  · rename_i hng
    dsimp only
    omega

theorem push_no_lock_capacity (h : TopKHeap) (x : Int) :
    (h.push_no_lock x).capacity_ = h.capacity_ := by
  unfold TopKHeap.push_no_lock
  split <;> rfl

theorem push_many_inv (xs : List Int) :
    ∀ h : TopKHeap, heapInv h → heapInv (h.push_many xs) := by
  induction xs with
  | nil => intro h hh; exact hh
  | cons x rest ih =>
    intro h hh
    exact ih (h.push_no_lock x) (push_no_lock_inv h x hh)

theorem setCapacity_inv (h : TopKHeap) (c : Nat) :
    heapInv (h.setCapacity c) := by
  unfold heapInv TopKHeap.setCapacity
  dsimp only
  rw [heapTrim_length]
  omega

theorem applyOp_inv (h : TopKHeap) (op : HeapOp) (hh : heapInv h) :
    heapInv (h.applyOp op) := by
  cases op with
  | push x => exact push_no_lock_inv h x hh
  | pushMany xs => exact push_many_inv xs h hh
  | setCap c => exact setCapacity_inv h c

theorem runOps_inv (ops : List HeapOp) :
    ∀ h : TopKHeap, heapInv h → heapInv (h.runOps ops) := by
  induction ops with
  | nil => intro h hh; exact hh
  | cons op rest ih =>
    intro h hh
    exact ih (h.applyOp op) (applyOp_inv h op hh)

/-- C8: starting from any heap within its capacity, no sequence of push,
push_many and setCapacity operations makes the stored-element count exceed
the current capacity; a push on a full heap evicts the top so the size
stays exactly at capacity; and setCapacity to a value at most the current
size immediately trims the heap to exactly the new capacity. -/
theorem c8_topk_capacity_invariant (h : TopKHeap) (ops : List HeapOp)
    (x : Int) (c : Nat) (hinv : h.heap.length ≤ h.capacity_) :
    (h.runOps ops).heap.length ≤ (h.runOps ops).capacity_ ∧
    (h.heap.length = h.capacity_ → (h.push x).heap.length = h.capacity_) ∧
    (c ≤ h.heap.length → (h.setCapacity c).heap.length = c) := by
  refine ⟨runOps_inv ops h hinv, ?_, ?_⟩
  · intro hfull
    unfold TopKHeap.push TopKHeap.push_no_lock
    split
    · rename_i hgt
      dsimp only
      rw [List.length_tail, heapInsert_length] at *
      omega
    · rename_i hng
      rw [heapInsert_length] at hng
      omega
  · intro hc
    unfold TopKHeap.setCapacity
    dsimp only
    rw [heapTrim_length]
    omega

/-- Witness for C8 at a full two-element heap run through a push, a
capacity shrink and a bulk push. -/
theorem c8_topk_capacity_invariant_witness :
    ((⟨2, [1, 2]⟩ : TopKHeap).heap.length ≤ (⟨2, [1, 2]⟩ : TopKHeap).capacity_) ∧
    (((⟨2, [1, 2]⟩ : TopKHeap).runOps
        [.push 5, .setCap 1, .pushMany [3, 4]]).heap.length ≤
      ((⟨2, [1, 2]⟩ : TopKHeap).runOps
        [.push 5, .setCap 1, .pushMany [3, 4]]).capacity_ ∧
    ((⟨2, [1, 2]⟩ : TopKHeap).heap.length = (⟨2, [1, 2]⟩ : TopKHeap).capacity_ →
      ((⟨2, [1, 2]⟩ : TopKHeap).push 7).heap.length =
        (⟨2, [1, 2]⟩ : TopKHeap).capacity_) ∧
    (1 ≤ (⟨2, [1, 2]⟩ : TopKHeap).heap.length →
      ((⟨2, [1, 2]⟩ : TopKHeap).setCapacity 1).heap.length = 1)) :=
  ⟨by decide, c8_topk_capacity_invariant ⟨2, [1, 2]⟩
    [.push 5, .setCap 1, .pushMany [3, 4]] 7 1 (by decide)⟩

/-- The slot's value is present whenever the new-value flag is up: set
always stores a value as it raises the flag, and only reset clears both. -/
def slotInv (s : ThreadSafeSlot) : Prop :=
  s.hasNewValueSinceLastGet_ = true → s.value_.isSome

theorem slotInv_preserved (s : ThreadSafeSlot) (v : Int) (hs : slotInv s) :
    slotInv ThreadSafeSlot.new ∧ slotInv (s.set v) ∧ slotInv s.try_get.2 ∧
    slotInv s.wait_and_get.2 ∧ slotInv s.wait_and_get_for.2 ∧
    slotInv s.stop ∧ slotInv s.reset := by
  obtain ⟨val, stopped, hasNew⟩ := s
  cases stopped <;> cases hasNew <;>
    simp_all [slotInv, ThreadSafeSlot.new, ThreadSafeSlot.set,
      ThreadSafeSlot.try_get, ThreadSafeSlot.wait_and_get,
      ThreadSafeSlot.wait_and_get_for, ThreadSafeSlot.stop,
      ThreadSafeSlot.reset]

/-- Counterexample to C9 as stated: on a fresh slot (not stopped, no value
ever set), wait_and_get_for returns nullopt when its timeout expires, so
nullopt is not returned only when the slot is stopped. -/
theorem c9_counterexample_timeout :
    ¬ (ThreadSafeSlot.new.wait_and_get_for.1 = none →
        ThreadSafeSlot.new.isStopped_ = true ∧
        ThreadSafeSlot.new.hasNewValueSinceLastGet_ = false) := by
  decide

/-- C9 (amended): wait_and_get returns nullopt exactly when the slot is
stopped with no value set since the last successful get; wait_and_get_for
returns nullopt exactly when no such value is available at the end of the
wait — whether because of stop or because the timeout expired — and both
calls, made after stop(), still return a value that was set before stop()
and not yet consumed. -/
theorem c9_slot_get_amended (s : ThreadSafeSlot)
    (hinv : s.hasNewValueSinceLastGet_ = true → s.value_.isSome) :
    ((s.hasNewValueSinceLastGet_ || s.isStopped_) = true →
      (s.wait_and_get.1 = none ↔
        (s.isStopped_ = true ∧ s.hasNewValueSinceLastGet_ = false))) ∧
    (s.wait_and_get_for.1 = none ↔ s.hasNewValueSinceLastGet_ = false) ∧
    (∀ v : Int, s.value_ = some v → s.hasNewValueSinceLastGet_ = true →
      s.stop.wait_and_get.1 = some v ∧ s.stop.wait_and_get_for.1 = some v) := by
  obtain ⟨val, stopped, hasNew⟩ := s
  cases stopped <;> cases hasNew <;> cases val <;>
    simp_all [ThreadSafeSlot.wait_and_get, ThreadSafeSlot.wait_and_get_for,
      ThreadSafeSlot.stop]

/-- Witness for C9 (amended) at a slot holding the unconsumed value 99. -/
theorem c9_slot_get_amended_witness :
    ((ThreadSafeSlot.new.set 99).hasNewValueSinceLastGet_ = true →
      (ThreadSafeSlot.new.set 99).value_.isSome) ∧
    ((((ThreadSafeSlot.new.set 99).hasNewValueSinceLastGet_ ||
        (ThreadSafeSlot.new.set 99).isStopped_) = true →
      ((ThreadSafeSlot.new.set 99).wait_and_get.1 = none ↔
        ((ThreadSafeSlot.new.set 99).isStopped_ = true ∧
          (ThreadSafeSlot.new.set 99).hasNewValueSinceLastGet_ = false))) ∧
    ((ThreadSafeSlot.new.set 99).wait_and_get_for.1 = none ↔
      (ThreadSafeSlot.new.set 99).hasNewValueSinceLastGet_ = false) ∧
    (∀ v : Int, (ThreadSafeSlot.new.set 99).value_ = some v →
      (ThreadSafeSlot.new.set 99).hasNewValueSinceLastGet_ = true →
      (ThreadSafeSlot.new.set 99).stop.wait_and_get.1 = some v ∧
        (ThreadSafeSlot.new.set 99).stop.wait_and_get_for.1 = some v)) :=
  ⟨by decide, c9_slot_get_amended (ThreadSafeSlot.new.set 99) (by decide)⟩

/-- C10: getOptionalParam returns nullopt when the key is absent but
throws (a runtime_error) when the key holds a value of another type;
getParam throws in both cases. -/
theorem c10_param_lookup_errors (p : DataPacket) (t : CppType)
    (key : String) :
    (p.findKey key = none →
      p.getOptionalParam t key = .ok none ∧
      p.getParam t key = .error ("Missing required parameter: " ++ key)) ∧
    (∀ kv, p.findKey key = some kv → kv.snd.typeOf ≠ t →
      p.getOptionalParam t key =
        .error ("Invalid parameter type for optional key " ++ key) ∧
      p.getParam t key = .error ("Invalid parameter type for key " ++ key)) := by
  constructor
  · intro hn
    simp [DataPacket.getOptionalParam, DataPacket.getParam, hn]
  · intro kv hkv hne
    simp [DataPacket.getOptionalParam, DataPacket.getParam, hkv, hne]

def c10Packet : DataPacket := ⟨1, [("int_param", .vInt 42)]⟩

/-- Witness for C10: an absent key versus a present key of the wrong
type. -/
theorem c10_param_lookup_errors_witness :
    (c10Packet.findKey "absent" = none ∧
      (c10Packet.getOptionalParam .tString "absent" = .ok none ∧
        c10Packet.getParam .tString "absent" =
          .error ("Missing required parameter: " ++ "absent"))) ∧
    (c10Packet.findKey "int_param" = some ("int_param", .vInt 42) ∧
      ("int_param", AnyVal.vInt 42).snd.typeOf ≠ .tString ∧
      (c10Packet.getOptionalParam .tString "int_param" =
          .error ("Invalid parameter type for optional key " ++ "int_param") ∧
        c10Packet.getParam .tString "int_param" =
          .error ("Invalid parameter type for key " ++ "int_param"))) :=
  ⟨⟨rfl, (c10_param_lookup_errors c10Packet .tString "absent").1 rfl⟩,
   ⟨rfl, by decide,
    (c10_param_lookup_errors c10Packet .tString "int_param").2
      ("int_param", .vInt 42) rfl (by decide)⟩⟩

end CppUtils
